import Mathlib

/-!
Verification development for the cigarette-counter bot (Rust sources:
src/commands.rs, src/config.rs, src/database.rs, src/main.rs).

The Rust code is shallowly embedded: strings are `String` or `List Char`,
database tables are Lean lists inside an explicit `DbState`, timestamps are
`Nat` instants, SQL queries become pure list functions, and fallible Rust
functions return `Option`/`Except`.  Machine integers (`i32`/`i64`) are
modelled as `Int` with explicit range checks where the source checks them.
-/

set_option maxHeartbeats 1000000

namespace CigCounter

/--
Model of Rust `str::trim_start_matches` on character lists: repeatedly remove
the pattern `t` from the front of `s` while it is a prefix.  The extra fuel
argument (instantiated with `s.length` below) makes the recursion structural;
each successful removal consumes at least one character, so `s.length` fuel is
always enough.
-/
def trimAux : Nat → List Char → List Char → List Char
  | 0, s, _ => s
  | fuel + 1, s, t =>
    if !t.isEmpty && t.isPrefixOf s then trimAux fuel (s.drop t.length) t else s

/-- Rust `s.trim_start_matches(t)` (commands.rs line 103). -/
def trimStartMatches (s t : List Char) : List Char :=
  trimAux s.length s t

/-- Digit accumulator of `i32::from_str_radix(_, 10)`: consume decimal digits,
returning `none` on the first non-digit character. -/
def digitsToNat : List Char → Nat → Option Nat
  | [], acc => some acc
  | c :: cs, acc =>
    if c.isDigit then digitsToNat cs (10 * acc + (c.toNat - 48)) else none

/-- Digit run of `i32::from_str_radix(_, 10)`: at least one decimal digit. -/
def parseDigits : List Char → Option Nat
  | [] => none
  | c :: cs => digitsToNat (c :: cs) 0

/-- Model of Rust `i32::from_str_radix(s, 10)`: an optional `+`/`-` sign
followed by at least one decimal digit, with the `i32` range enforced
(`-2147483648 ..= 2147483647`). -/
def parseI32 : List Char → Option Int
  | [] => none
  | c :: cs =>
    if c = '+' then
      (parseDigits cs).bind fun n =>
        if n ≤ 2147483647 then some ((n : Int)) else none
    else if c = '-' then
      (parseDigits cs).bind fun n =>
        if n ≤ 2147483648 then some (-(n : Int)) else none
    else
      (parseDigits (c :: cs)).bind fun n =>
        if n ≤ 2147483647 then some ((n : Int)) else none

/-- Source: commands.rs `extract_cigarette_id` (lines 102-105) —
`i32::from_str_radix(custom_id.trim_start_matches(uuid), 10)`, with the
parse error modelled as `none`. -/
def extract_cigarette_id (custom_id uuid : List Char) : Option Int :=
  parseI32 (trimStartMatches custom_id uuid)

/-- Value of a digit run (most significant first). -/
def digitsVal (l : List Char) : Nat :=
  l.foldl (fun a c => 10 * a + (c.toNat - 48)) 0

/-- Spec-side predicate for C1, following the spec words "decodes the
remainder as a base-10 integer": the remainder is an optionally signed
nonempty run of decimal digits whose value fits in a 32-bit signed integer. -/
def decodesAsBase10I32 : List Char → Bool
  | [] => false
  | c :: cs =>
    if c = '+' then
      !cs.isEmpty && cs.all Char.isDigit && decide (digitsVal cs ≤ 2147483647)
    else if c = '-' then
      !cs.isEmpty && cs.all Char.isDigit && decide (digitsVal cs ≤ 2147483648)
    else
      (c :: cs).all Char.isDigit && decide (digitsVal (c :: cs) ≤ 2147483647)

/-- Row of the `users` table (database.rs `User`); timestamps are `Nat`
instants (the columns are non-null in every query of the source). -/
structure UserRow where
  discord_id : String
  username : String
  created_at : Nat
  updated_at : Nat

/-- Row of the `smoking_types` table (database.rs `SmokingType`; the unused
`created_at` column is omitted). -/
structure SmokingType where
  id : Int
  type_name : String
  description : Option String

/-- Row of the `smoking_logs` table (database.rs `SmokingLog`; the unused
`created_at`/`updated_at` columns are omitted). -/
structure SmokingLog where
  id : Int
  discord_id : String
  smoking_type_id : Int
  quantity : Int
  smoked_at : Nat

/-- database.rs `DailySmokingSummary`. -/
structure DailySmokingSummary where
  discord_id : String
  username : String
  smoke_date : Nat
  type_name : String
  description : String
  total_quantity : Option Int

/-- The relational store owned by `Database`: tables in row-insertion order
plus the serial counter backing `smoking_logs.id`. -/
structure DbState where
  users : List UserRow
  smoking_types : List SmokingType
  smoking_logs : List SmokingLog
  next_log_id : Int

/-- Lookup `SELECT ... FROM users WHERE discord_id = $1` (unique key). -/
def findUser (users : List UserRow) (id : String) : Option UserRow :=
  users.find? (fun u => u.discord_id == id)

/-- Source: database.rs `Database::get_or_create_user` (lines 96-166):
inside one transaction, look the user up by `discord_id`; if absent insert a
row with the given name; if present with a different stored name, update the
name and set `updated_at = CURRENT_TIMESTAMP`; otherwise leave the table
unchanged.  Returns the resulting row, the new store, and whether a write
(INSERT or UPDATE) was issued. -/
def get_or_create_user (st : DbState) (discord_id username : String) (now : Nat) :
    UserRow × DbState × Bool :=
  match findUser st.users discord_id with
  | some u =>
    if u.username ≠ username then
      ({ u with username := username, updated_at := now },
       { st with
          users := st.users.map (fun r =>
            if r.discord_id == discord_id then
              { r with username := username, updated_at := now }
            else r) },
       true)
    else
      (u, st, false)
  | none =>
    (⟨discord_id, username, now, now⟩,
     { st with users := st.users ++ [⟨discord_id, username, now, now⟩] },
     true)

/-- Source: database.rs `Database::log_smoking` (lines 197-228): insert one
immutable row; `smoked_at` defaults to the current time at insert. -/
def log_smoking (st : DbState) (discord_id : String) (smoking_type_id quantity : Int)
    (now : Nat) : SmokingLog × DbState :=
  let log : SmokingLog := ⟨st.next_log_id, discord_id, smoking_type_id, quantity, now⟩
  (log,
   { st with
      smoking_logs := st.smoking_logs ++ [log],
      next_log_id := st.next_log_id + 1 })

/-- Seconds per calendar day, fixing the epoch-based model of `DATE(_)`. -/
def secondsPerDay : Nat := 86400

/-- Model of SQL `DATE(timestamp)`: the calendar-day index of an instant. -/
def dateOf (t : Nat) : Nat := t / secondsPerDay

/-- The `WHERE sl.discord_id = $1 AND DATE(sl.smoked_at) = $2` filter of
`get_daily_summary`. -/
def matchingLogs (db : DbState) (id : String) (d : Nat) : List SmokingLog :=
  db.smoking_logs.filter (fun l => l.discord_id == id && dateOf l.smoked_at == d)

/-- One row of the `smoking_logs JOIN users JOIN smoking_types` relation. -/
structure JoinedRow where
  log : SmokingLog
  user : UserRow
  stype : SmokingType

/-- Join `FROM smoking_logs sl JOIN users u ON sl.discord_id = u.discord_id`
with `JOIN smoking_types st ON sl.smoking_type_id = st.id`, restricted by the
`WHERE` clause of `get_daily_summary`. -/
def joinedRows (db : DbState) (id : String) (d : Nat) : List JoinedRow :=
  (matchingLogs db id d).flatMap (fun l =>
    (db.users.filter (fun u => u.discord_id == l.discord_id)).flatMap (fun u =>
      (db.smoking_types.filter (fun st => st.id == l.smoking_type_id)).map
        (fun st => ⟨l, u, st⟩)))

/-- The `GROUP BY` key of `get_daily_summary`: discord_id, username,
DATE(smoked_at), type_name, description.  SQL groups by the raw column
values, so the nullable `description` column appears here as it is stored
(a NULL description is its own group value). -/
abbrev SummaryKey := String × String × Nat × String × Option String

/-- Grouping key of one joined row. -/
def rowKey (r : JoinedRow) : SummaryKey :=
  (r.log.discord_id, r.user.username, dateOf r.log.smoked_at,
   r.stype.type_name, r.stype.description)

/-- Decoding one grouped output row into `DailySmokingSummary`: the key
columns plus `SUM(sl.quantity)` over the rows of the group.  The query reads
the nullable description column through the non-null assertion
`description as "description!"`, so a NULL description makes the row decode
fail (a runtime query error) instead of producing an entry. -/
def summaryEntry (rows : List JoinedRow) (k : SummaryKey) :
    Option DailySmokingSummary :=
  match k.2.2.2.2 with
  | none => none
  | some desc =>
    some ⟨k.1, k.2.1, k.2.2.1, k.2.2.2.1, desc,
      some (((rows.filter (fun r => rowKey r == k)).map
        (fun r => r.log.quantity)).sum)⟩

/-- Row-by-row decoding of the grouped result set (sqlx `fetch_all`): any
row failing the non-null description assertion turns the whole call into an
error. -/
def decodeSummaryRows (rows : List JoinedRow) :
    List SummaryKey → Option (List DailySmokingSummary)
  | [] => some []
  | k :: ks =>
    match summaryEntry rows k with
    | none => none
    | some e =>
      match decodeSummaryRows rows ks with
      | none => none
      | some es => some (e :: es)

/-- Source: database.rs `Database::get_daily_summary` (lines 238-272): sum
quantities over the joined, date-filtered rows, grouped by the key above
(one output row per distinct key; grouped-result order unspecified, modelled
as first-log order of the distinct keys), each grouped row decoded through
the non-null description assertion; `none` models the propagated query
error. -/
def get_daily_summary (db : DbState) (id : String) (d : Nat) :
    Option (List DailySmokingSummary) :=
  decodeSummaryRows (joinedRows db id d) ((joinedRows db id d).map rowKey).dedup

/-- Comparison for `ORDER BY id` used by `get_smoking_types`. -/
def idLe (a b : SmokingType) : Prop := a.id ≤ b.id

instance : DecidableRel idLe :=
  fun a b => inferInstanceAs (Decidable (a.id ≤ b.id))

instance : IsTotal SmokingType idLe :=
  ⟨fun a b => le_total a.id b.id⟩

instance : IsTrans SmokingType idLe :=
  ⟨fun _ _ _ h1 h2 => le_trans h1 h2⟩

/-- Source: database.rs `Database::get_smoking_types` (lines 305-322):
`SELECT ... FROM smoking_types ORDER BY id` — the catalog sorted by id. -/
def get_smoking_types (db : DbState) : List SmokingType :=
  db.smoking_types.insertionSort idLe

/-- Decimal digits of a natural number (Rust `{}` display). -/
def natStr (n : Nat) : String := String.mk (Nat.toDigits 10 n)

/-- Rust `{}` display of a signed integer. -/
def intStr (i : Int) : String :=
  if i < 0 then "-" ++ natStr ((-i).toNat) else natStr i.toNat

/-- Source: commands.rs `format_daily_summary` (lines 39-50): one
`"\n<description>: <total>本"` fragment per summary row, concatenated
(`collect::<String>()`). -/
def format_daily_summary (daily_summary : List DailySmokingSummary) : String :=
  (daily_summary.map (fun summary =>
      "\n" ++ summary.description ++ ": " ++
        intStr (summary.total_quantity.getD 0) ++ "本")).foldl
    (fun a b => a ++ b) ""

/-- How a message is delivered back to the platform. -/
inductive ReplyKind
  | interactionResponse
  | channelMessage

/-- An outbound message with its delivery mode; `interactionResponse` models
serenity `ComponentInteraction::create_response` (a direct reply to the
triggering button-press event), `channelMessage` a fresh channel message. -/
structure Reply where
  kind : ReplyKind
  content : String

/-- A button-press event (serenity `ComponentInteraction`): the pressing
user's platform id and display name, and the pressed button's custom id.
`user_name` is carried by the platform event; whether the code reads it is
exactly what claim C2 is about. -/
structure Interaction where
  user_id : String
  user_name : String
  custom_id : List Char

/-- Source: commands.rs `handle_interaction` (lines 61-92).  `author_name` is
`ctx.author().name` (the user who invoked the command), `now` the database
clock, `today` the handler's `Local::now().date_naive()`.  Returns the new
store and the response (`none` models the propagated parse error). -/
def handle_interaction (st : DbState) (author_name : String) (mci : Interaction)
    (uuid : List Char) (now today : Nat) : DbState × Option Reply :=
  let r := get_or_create_user st mci.user_id author_name now
  match extract_cigarette_id mci.custom_id uuid with
  | none => (r.2.1, none)
  | some cigarette_id =>
    let r2 := log_smoking r.2.1 r.1.discord_id cigarette_id 1 now
    match get_daily_summary r2.2 r.1.discord_id today with
    | none => (r2.2, none)
    | some daily_summary =>
      (r2.2,
       some ⟨ReplyKind.interactionResponse,
         "記録しました。\n本日の累計本数" ++ format_daily_summary daily_summary⟩)

/-- Source: the `while let Some(mci) = ...collector... { handle_interaction(...)? }`
loop of commands.rs `create_cigarette_ui` (lines 126-135), run over the
stream of collected events: a handler error (`none` reply) terminates the
loop immediately; the `Bool` records whether the loop ended without error. -/
def run_listen_loop (author_name : String) (uuid : List Char) (now today : Nat) :
    DbState → List Interaction → DbState × Bool
  | st, [] => (st, true)
  | st, e :: es =>
    match handle_interaction st author_name e uuid now today with
    | (st1, some _) => run_listen_loop author_name uuid now today st1 es
    | (st1, none) => (st1, false)

/-- Source: commands.rs `create_cigarette_buttons` line 25 —
`format!("{}{}", uuid, cigarette_type.id)`. -/
def button_custom_id (uuid : List Char) (id : Int) : List Char :=
  uuid ++ (intStr id).data

/-- A rendered button (serenity `CreateButton`): custom id and label. -/
structure CreateButton where
  custom_id : List Char
  label : String

/-- Source: commands.rs `create_cigarette_buttons` (lines 15-30): one button
per catalog type, labelled with the description
(`description.unwrap_or_default()`). -/
def create_cigarette_buttons (db : DbState) (uuid : List Char) : List CreateButton :=
  (get_smoking_types db).map (fun t =>
    ⟨button_custom_id uuid t.id, t.description.getD ""⟩)

/-- Source: the collector filter of commands.rs `create_cigarette_ui`
(line 130) — `mci.data.custom_id.starts_with(&uuid)`. -/
def interaction_filter (uuid custom_id : List Char) : Bool :=
  uuid.isPrefixOf custom_id

/-- config.rs `ConfigError`. -/
inductive ConfigError
  | MissingBotToken
  | MissingDatabaseUrl

/-- config.rs `Config`; the last field is the optional command text marker
(`COMMAND_PREFIX`, default "c:"). -/
structure Config where
  bot_token : String
  database_url : String
  command_prefix_value : String

/-- Source: config.rs `Config::load` (lines 21-27); `env` models the process
environment. -/
def Config.load (env : String → Option String) : Except ConfigError Config :=
  match env "BOT_TOKEN" with
  | none => Except.error ConfigError.MissingBotToken
  | some bt =>
    match env "DATABASE_URL" with
    | none => Except.error ConfigError.MissingDatabaseUrl
    | some du => Except.ok ⟨bt, du, (env "COMMAND_PREFIX").getD "c:"⟩

/-- A concrete process environment with both required variables set and the
optional one absent (used to instantiate the configuration theorem). -/
def envW : String → Option String := fun s =>
  if s = "BOT_TOKEN" then some "tok"
  else if s = "DATABASE_URL" then some "db"
  else none

deriving instance DecidableEq for UserRow

deriving instance DecidableEq for SmokingType

deriving instance DecidableEq for SmokingLog

deriving instance DecidableEq for DailySmokingSummary

deriving instance DecidableEq for DbState

deriving instance DecidableEq for JoinedRow

deriving instance DecidableEq for ReplyKind

deriving instance DecidableEq for Reply

deriving instance DecidableEq for Interaction

deriving instance DecidableEq for CreateButton

deriving instance DecidableEq for ConfigError

deriving instance DecidableEq for Config

end CigCounter

namespace CigCounter

lemma isPrefixOf_length_le : ∀ {t s : List Char}, t.isPrefixOf s = true → t.length ≤ s.length
  | [], _, _ => by simp
  | _ :: _, [], h => by simp [List.isPrefixOf] at h
  | _ :: as, _ :: bs, h => by
    simp only [List.isPrefixOf, Bool.and_eq_true] at h
    simpa using Nat.succ_le_succ (@isPrefixOf_length_le as bs h.2)

lemma isPrefixOf_append_self : ∀ (t x : List Char), t.isPrefixOf (t ++ x) = true
  | [], _ => by simp [List.isPrefixOf]
  | a :: as, x => by
    simp only [List.cons_append, List.isPrefixOf, Bool.and_eq_true]
    exact ⟨by simp, isPrefixOf_append_self as x⟩

lemma trimAux_nil_pattern : ∀ (f : Nat) (s : List Char), trimAux f s [] = s
  | 0, _ => rfl
  | _ + 1, _ => by simp [trimAux, List.isEmpty]

lemma trimAux_congr : ∀ (f1 f2 : Nat) (s t : List Char),
    s.length ≤ f1 → s.length ≤ f2 → trimAux f1 s t = trimAux f2 s t := by
  intro f1
  induction f1 with
  | zero =>
    intro f2 s t h1 _
    have hs : s = [] := by
      cases s with
      | nil => rfl
      | cons a as => simp at h1
    subst hs
    cases f2 with
    | zero => rfl
    | succ f2 =>
      have hcond : (!t.isEmpty && t.isPrefixOf ([] : List Char)) = false := by
        cases t <;> simp [List.isPrefixOf, List.isEmpty]
      simp [trimAux, hcond]
  | succ f1 ih =>
    intro f2 s t h1 h2
    cases f2 with
    | zero =>
      have hs : s = [] := by
        cases s with
        | nil => rfl
        | cons a as => simp at h2
      subst hs
      have hcond : (!t.isEmpty && t.isPrefixOf ([] : List Char)) = false := by
        cases t <;> simp [List.isPrefixOf, List.isEmpty]
      simp [trimAux, hcond]
    | succ f2 =>
      simp only [trimAux]
      by_cases hc : (!t.isEmpty && t.isPrefixOf s) = true
      · rw [if_pos hc, if_pos hc]
        have hpf : t.isPrefixOf s = true := by
          simp only [Bool.and_eq_true] at hc
          exact hc.2
        have hne : t ≠ [] := by
          intro h
          subst h
          simp [List.isEmpty] at hc
        have hts : t.length ≤ s.length := isPrefixOf_length_le hpf
        have htl : 1 ≤ t.length := by
          cases t with
          | nil => exact absurd rfl hne
          | cons a as => simp
        apply ih
        · simp only [List.length_drop]
          omega
        · simp only [List.length_drop]
          omega
      · rw [if_neg hc, if_neg hc]

lemma trimStartMatches_append (t x : List Char) (ht : t ≠ []) :
    trimStartMatches (t ++ x) t = trimStartMatches x t := by
  have htl : 1 ≤ t.length := by
    cases t with
    | nil => exact absurd rfl ht
    | cons a as => simp
  unfold trimStartMatches
  obtain ⟨n, hn⟩ : ∃ n, (t ++ x).length = n + 1 :=
    ⟨t.length + x.length - 1, by simp; omega⟩
  rw [hn]
  simp only [trimAux]
  have hpf : t.isPrefixOf (t ++ x) = true := isPrefixOf_append_self t x
  have hne : (!t.isEmpty) = true := by
    cases t with
    | nil => exact absurd rfl ht
    | cons a as => simp [List.isEmpty]
  rw [if_pos (by rw [hne, hpf]; rfl)]
  rw [List.drop_left]
  apply trimAux_congr
  · have := List.length_append t x
    omega
  · exact Nat.le_refl _

lemma digitsToNat_eq : ∀ (l : List Char) (acc : Nat),
    digitsToNat l acc =
      if l.all Char.isDigit then
        some (l.foldl (fun a c => 10 * a + (c.toNat - 48)) acc)
      else none := by
  intro l
  induction l with
  | nil => intro acc; simp [digitsToNat]
  | cons c cs ih =>
    intro acc
    by_cases hc : c.isDigit
    · simp [digitsToNat, hc, ih]
    · simp [digitsToNat, hc]

lemma parseDigits_eq (l : List Char) :
    parseDigits l =
      if !l.isEmpty && l.all Char.isDigit then some (digitsVal l) else none := by
  cases l with
  | nil => simp [parseDigits, List.isEmpty]
  | cons c cs =>
    simp only [parseDigits, digitsToNat_eq, digitsVal, List.isEmpty]
    simp

lemma parseI32_isSome (r : List Char) :
    (parseI32 r).isSome = decodesAsBase10I32 r := by
  cases r with
  | nil => rfl
  | cons c cs =>
    simp only [parseI32, decodesAsBase10I32]
    split_ifs with h1 h2
    · rw [parseDigits_eq]
      cases he : cs.isEmpty with
      | true => simp [he]
      | false =>
        cases ha : cs.all Char.isDigit with
        | false => simp [he, ha]
        | true =>
          by_cases hr : digitsVal cs ≤ 2147483647
          · simp [he, ha, hr]
          · simp [he, ha, hr]
    · rw [parseDigits_eq]
      cases he : cs.isEmpty with
      | true => simp [he]
      | false =>
        cases ha : cs.all Char.isDigit with
        | false => simp [he, ha]
        | true =>
          by_cases hr : digitsVal cs ≤ 2147483648
          · simp [he, ha, hr]
          · simp [he, ha, hr]
    · rw [parseDigits_eq]
      cases ha : (c :: cs).all Char.isDigit with
      | false => simp [List.isEmpty, ha]
      | true =>
        by_cases hr : digitsVal (c :: cs) ≤ 2147483647
        · simp [List.isEmpty, ha, hr]
        · simp [List.isEmpty, ha, hr]

/-- C1: `extract_cigarette_id` strips the correlation-token prefix from the
button identifier and decodes the remainder as a base-10 integer: the
documented examples hold, and in general the parse succeeds exactly when the
remainder left after stripping the token decodes as a (possibly signed)
base-10 integer in `i32` range. -/
theorem extract_cigarette_id_spec :
    extract_cigarette_id ("abc123def42".data) ("abc123def".data) = some 42 ∧
    extract_cigarette_id ("abc123defXY".data) ("abc123def".data) = none ∧
    ∀ s t : List Char,
      (extract_cigarette_id s t).isSome = decodesAsBase10I32 (trimStartMatches s t) :=
  ⟨by decide, by decide, fun _ _ => parseI32_isSome _⟩

lemma find?_append_of_none {α : Type} (p : α → Bool) {l1 : List α} (l2 : List α)
    (h : l1.find? p = none) : (l1 ++ l2).find? p = l2.find? p := by
  induction l1 with
  | nil => rfl
  | cons a as ih =>
    by_cases hpa : p a = true
    · rw [List.find?_cons_of_pos _ hpa] at h
      exact absurd h (by simp)
    · rw [List.find?_cons_of_neg _ hpa] at h
      rw [List.cons_append, List.find?_cons_of_neg _ hpa]
      exact ih h

lemma find?_map_comp {α β : Type} (f : α → β) (p : β → Bool) (l : List α) :
    (l.map f).find? p = (l.find? (fun a => p (f a))).map f := by
  induction l with
  | nil => rfl
  | cons a as ih =>
    by_cases hpa : p (f a) = true
    · rw [List.map_cons, List.find?_cons_of_pos _ hpa,
        List.find?_cons_of_pos as (show ((fun a => p (f a)) a) = true from hpa)]
      rfl
    · rw [List.map_cons, List.find?_cons_of_neg _ hpa,
        List.find?_cons_of_neg as (show ¬((fun a => p (f a)) a = true) from hpa)]
      exact ih

lemma get_or_create_user_found (st : DbState) (id n : String) (now : Nat) :
    ∃ u, findUser ((get_or_create_user st id n now).2.1).users id = some u ∧
      u.username = n ∧ u.discord_id = id := by
  cases hf : findUser st.users id with
  | none =>
    refine ⟨⟨id, n, now, now⟩, ?_, rfl, rfl⟩
    simp only [get_or_create_user, hf]
    show findUser (st.users ++ [⟨id, n, now, now⟩]) id = some ⟨id, n, now, now⟩
    unfold findUser at hf ⊢
    rw [find?_append_of_none _ _ hf]
    simp [List.find?]
  | some u =>
    have hbeq : (u.discord_id == id) = true := by
      have h2 : List.find? (fun v => v.discord_id == id) st.users = some u := hf
      have h3 := List.find?_some h2
      exact h3
    have hid : u.discord_id = id := by simpa using hbeq
    by_cases hne : u.username ≠ n
    · refine ⟨{ u with username := n, updated_at := now }, ?_, rfl, hid⟩
      simp only [get_or_create_user, hf, if_pos hne]
      show findUser (st.users.map _) id = _
      unfold findUser at hf ⊢
      rw [find?_map_comp]
      have hcongr :
          (fun r : UserRow =>
            ((if r.discord_id == id then
                { r with username := n, updated_at := now } else r).discord_id == id))
          = fun r : UserRow => r.discord_id == id := by
        funext r
        by_cases hr : (r.discord_id == id) = true
        · simp [hr]
        · simp [Bool.eq_false_iff.mpr hr, hr]
      rw [hcongr, hf]
      simp [hbeq]
      intro hcontra
      exact absurd hid hcontra
    · push_neg at hne
      exact ⟨u, by simp [get_or_create_user, hf, hne], hne, hid⟩

lemma get_or_create_user_no_write (st : DbState) (id n : String) (now : Nat)
    (u : UserRow) (hf : findUser st.users id = some u) (hn : u.username = n) :
    get_or_create_user st id n now = (u, st, false) := by
  simp [get_or_create_user, hf, hn]

lemma get_or_create_user_ret_id (st : DbState) (id n : String) (now : Nat) :
    ((get_or_create_user st id n now).1).discord_id = id := by
  cases hf : findUser st.users id with
  | none => simp [get_or_create_user, hf]
  | some u =>
    have hid : u.discord_id = id := by
      have h2 : List.find? (fun v => v.discord_id == id) st.users = some u := hf
      have := List.find?_some h2
      simpa using this
    by_cases hne : u.username ≠ n
    · simp [get_or_create_user, hf, if_pos hne, hid]
    · push_neg at hne
      simp [get_or_create_user, hf, hne, hid]

/-- C3: `get_or_create_user` looks the user up by external identifier; if
absent it inserts a row with the given name, if present with a different
stored name it updates the name and bumps the update timestamp, and if
present with the same name it performs no write.  Consequently calling it
twice with the same pair returns the same user identifier both times with no
write on the second call, and calling it with name1 then name2 leaves the
stored name equal to name2. -/
theorem get_or_create_user_spec :
    (∀ st id n now, ∃ u,
        findUser ((get_or_create_user st id n now).2.1).users id = some u ∧
          u.username = n ∧ u.discord_id = id) ∧
    (∀ st id n now u, findUser st.users id = some u → u.username = n →
        get_or_create_user st id n now = (u, st, false)) ∧
    (∀ st id n now u, findUser st.users id = some u → u.username ≠ n →
        (get_or_create_user st id n now).1.username = n ∧
          (get_or_create_user st id n now).1.updated_at = now ∧
          (get_or_create_user st id n now).2.2 = true) ∧
    (∀ st id n t1 t2,
        (get_or_create_user st id n t1).1.discord_id = id ∧
        (get_or_create_user (get_or_create_user st id n t1).2.1 id n t2).1.discord_id = id ∧
        (get_or_create_user (get_or_create_user st id n t1).2.1 id n t2).2.2 = false ∧
        (get_or_create_user (get_or_create_user st id n t1).2.1 id n t2).2.1
          = (get_or_create_user st id n t1).2.1) ∧
    (∀ st id n1 n2 t1 t2, n1 ≠ n2 → ∃ u,
        findUser ((get_or_create_user
            (get_or_create_user st id n1 t1).2.1 id n2 t2).2.1).users id = some u ∧
          u.username = n2) := by
  refine ⟨get_or_create_user_found, get_or_create_user_no_write, ?_, ?_, ?_⟩
  · intro st id n now u hf hne
    simp [get_or_create_user, hf, if_pos hne]
  · intro st id n t1 t2
    obtain ⟨u1, hfind1, hu1n, hu1id⟩ := get_or_create_user_found st id n t1
    have h2 := get_or_create_user_no_write _ id n t2 u1 hfind1 hu1n
    refine ⟨get_or_create_user_ret_id st id n t1, ?_, ?_, ?_⟩
    · rw [h2]
      exact hu1id
    · rw [h2]
    · rw [h2]
  · intro st id n1 n2 t1 t2 _
    obtain ⟨u, hfind, hn, _⟩ := get_or_create_user_found
      (get_or_create_user st id n1 t1).2.1 id n2 t2
    exact ⟨u, hfind, hn⟩

/-- Witness for C3 at concrete inputs. -/
theorem get_or_create_user_spec_witness :
    (("A" : String) ≠ "B") ∧
    (findUser ([⟨"1", "A", 0, 0⟩] : List UserRow) "1" = some ⟨"1", "A", 0, 0⟩) ∧
    get_or_create_user ⟨[⟨"1", "A", 0, 0⟩], [], [], 1⟩ "1" "A" 5
      = (⟨"1", "A", 0, 0⟩, ⟨[⟨"1", "A", 0, 0⟩], [], [], 1⟩, false) ∧
    (∃ u, findUser ((get_or_create_user
        (get_or_create_user ⟨[], [], [], 1⟩ "1" "A" 0).2.1 "1" "B" 1).2.1).users "1"
        = some u ∧ u.username = "B") :=
  ⟨by decide, by decide,
   get_or_create_user_spec.2.1 ⟨[⟨"1", "A", 0, 0⟩], [], [], 1⟩ "1" "A" 5
     ⟨"1", "A", 0, 0⟩ (by decide) (by decide),
   get_or_create_user_spec.2.2.2.2 ⟨[], [], [], 1⟩ "1" "A" "B" 0 1 (by decide)⟩

lemma pairwise_lt_of_le_of_ne {l : List SmokingType}
    (hle : l.Pairwise idLe) (hne : l.Pairwise (fun a b => a.id ≠ b.id)) :
    l.Pairwise (fun a b => a.id < b.id) :=
  (hle.and hne).imp (fun h => lt_of_le_of_ne h.1 h.2)

lemma strictSorted_perm_eq : ∀ {l1 l2 : List SmokingType}, l1.Perm l2 →
    l1.Pairwise (fun a b => a.id < b.id) → l2.Pairwise (fun a b => a.id < b.id) →
    l1 = l2 := by
  intro l1
  induction l1 with
  | nil =>
    intro l2 hp _ _
    exact hp.nil_eq
  | cons a l1 ih =>
    intro l2 hp h1 h2
    have ha2 : a ∈ l2 := hp.mem_iff.mp (List.mem_cons_self a l1)
    cases l2 with
    | nil => simp at ha2
    | cons b l2 =>
      have hab : a = b := by
        by_contra hne
        have ha' : a ∈ l2 := by
          rcases List.mem_cons.mp ha2 with h | h
          · exact absurd h hne
          · exact h
        have hb : b ∈ a :: l1 := hp.symm.mem_iff.mp (List.mem_cons_self b l2)
        have hb' : b ∈ l1 := by
          rcases List.mem_cons.mp hb with h | h
          · exact absurd h.symm hne
          · exact h
        have hba : b.id < a.id := (List.pairwise_cons.mp h2).1 a ha'
        have hab2 : a.id < b.id := (List.pairwise_cons.mp h1).1 b hb'
        omega
      subst hab
      have hp' : l1.Perm l2 := hp.cons_inv
      rw [ih hp' (List.pairwise_cons.mp h1).2 (List.pairwise_cons.mp h2).2]

/-- C6: `get_smoking_types` returns a catalog listing that is a permutation
of the stored catalog sorted by integer identifier ascending, and with
distinct identifiers the output is the same for any insertion order. -/
theorem get_smoking_types_spec :
    (∀ db : DbState,
        (get_smoking_types db).Perm db.smoking_types ∧
        (get_smoking_types db).Sorted idLe) ∧
    (∀ db1 db2 : DbState, db1.smoking_types.Perm db2.smoking_types →
        db1.smoking_types.Pairwise (fun a b => a.id ≠ b.id) →
        get_smoking_types db1 = get_smoking_types db2) := by
  constructor
  · intro db
    exact ⟨List.perm_insertionSort idLe db.smoking_types,
           List.sorted_insertionSort idLe db.smoking_types⟩
  · intro db1 db2 hperm hids
    have hids2 : db2.smoking_types.Pairwise (fun a b => a.id ≠ b.id) :=
      (hperm.pairwise_iff (fun h => Ne.symm h)).mp hids
    have hperm1 : (get_smoking_types db1).Perm db1.smoking_types :=
      List.perm_insertionSort idLe db1.smoking_types
    have hperm2 : (get_smoking_types db2).Perm db2.smoking_types :=
      List.perm_insertionSort idLe db2.smoking_types
    have hids1' : (get_smoking_types db1).Pairwise (fun a b => a.id ≠ b.id) :=
      (hperm1.pairwise_iff (fun h => Ne.symm h)).mpr hids
    have hids2' : (get_smoking_types db2).Pairwise (fun a b => a.id ≠ b.id) :=
      (hperm2.pairwise_iff (fun h => Ne.symm h)).mpr hids2
    exact strictSorted_perm_eq (hperm1.trans (hperm.trans hperm2.symm))
      (pairwise_lt_of_le_of_ne (List.sorted_insertionSort idLe db1.smoking_types) hids1')
      (pairwise_lt_of_le_of_ne (List.sorted_insertionSort idLe db2.smoking_types) hids2')

/-- Witness for C6 at concrete inputs. -/
theorem get_smoking_types_spec_witness :
    (([⟨2, "b", none⟩, ⟨1, "a", none⟩] : List SmokingType).Perm
        [⟨1, "a", none⟩, ⟨2, "b", none⟩]) ∧
    (([⟨2, "b", none⟩, ⟨1, "a", none⟩] : List SmokingType).Pairwise
        (fun a b => a.id ≠ b.id)) ∧
    get_smoking_types ⟨[], [⟨2, "b", none⟩, ⟨1, "a", none⟩], [], 1⟩
      = get_smoking_types ⟨[], [⟨1, "a", none⟩, ⟨2, "b", none⟩], [], 1⟩ :=
  ⟨by decide, by decide,
   get_smoking_types_spec.2 ⟨[], [⟨2, "b", none⟩, ⟨1, "a", none⟩], [], 1⟩
     ⟨[], [⟨1, "a", none⟩, ⟨2, "b", none⟩], [], 1⟩ (by decide) (by decide)⟩

lemma flatMap_congr {α β : Type} {l : List α} {f g : α → List β}
    (h : ∀ a ∈ l, f a = g a) : l.flatMap f = l.flatMap g := by
  induction l with
  | nil => rfl
  | cons a as ih =>
    rw [List.flatMap_cons, List.flatMap_cons, h a (List.mem_cons_self a as),
      ih (fun b hb => h b (List.mem_cons.mpr (Or.inr hb)))]

lemma flatMap_if_single {α β : Type} (p : α → Bool) (g : α → β) (l : List α) :
    (l.flatMap (fun a => if p a then [g a] else [])) = (l.filter p).map g := by
  induction l with
  | nil => rfl
  | cons a as ih =>
    by_cases hpa : p a = true
    · simp [List.flatMap_cons, List.filter_cons, hpa, ih]
    · simp [List.flatMap_cons, List.filter_cons, hpa, ih]

lemma mem_pairwise_key_eq {α β : Type} (f : α → β) {l : List α}
    (h : l.Pairwise (fun a b => f a ≠ f b)) {a b : α}
    (ha : a ∈ l) (hb : b ∈ l) (hf : f a = f b) : a = b := by
  by_contra hne
  exact (h.forall (fun {_ _} hxy => Ne.symm hxy) ha hb hne) hf

lemma nodup_filter_beq {α : Type} [BEq α] [LawfulBEq α] : ∀ {l : List α}, l.Nodup →
    ∀ {a : α}, a ∈ l → l.filter (fun x => x == a) = [a] := by
  intro l
  induction l with
  | nil =>
    intro _ a ha
    simp at ha
  | cons x xs ih =>
    intro hnd a ha
    have hx := List.nodup_cons.mp hnd
    rcases List.mem_cons.mp ha with rfl | ha'
    · have hnil : xs.filter (fun y => y == a) = [] := by
        rw [List.filter_eq_nil_iff]
        intro y hy hya
        have : y = a := by simpa using hya
        subst this
        exact hx.1 hy
      simp [List.filter_cons, hnil]
    · have hax : ¬(x == a) = true := by
        intro hxa
        have hxe : x = a := by simpa using hxa
        subst hxe
        exact hx.1 ha'
      rw [List.filter_cons, if_neg hax]
      exact ih hx.2 ha'

lemma decodeSummaryRows_all_some (rows : List JoinedRow)
    (g : SummaryKey → DailySmokingSummary) :
    ∀ ks : List SummaryKey, (∀ k ∈ ks, summaryEntry rows k = some (g k)) →
      decodeSummaryRows rows ks = some (ks.map g) := by
  intro ks
  induction ks with
  | nil =>
    intro _
    rfl
  | cons k ks ih =>
    intro h
    have hk := h k (List.mem_cons_self k ks)
    have hrest := ih (fun a ha => h a (List.mem_cons.mpr (Or.inr ha)))
    simp [decodeSummaryRows, hk, hrest]

lemma decodeSummaryRows_none (rows : List JoinedRow) :
    ∀ (ks : List SummaryKey) (k : SummaryKey), k ∈ ks →
      summaryEntry rows k = none → decodeSummaryRows rows ks = none := by
  intro ks
  induction ks with
  | nil =>
    intro k hk _
    simp at hk
  | cons a as ih =>
    intro k hk hnone
    rcases List.mem_cons.mp hk with rfl | hk'
    · simp [decodeSummaryRows, hnone]
    · cases ha : summaryEntry rows a with
      | none => simp [decodeSummaryRows, ha]
      | some e => simp [decodeSummaryRows, ha, ih k hk' hnone]

/-- C4 (amended): the query joins the user row and groups by
(type_name, description), reading the description through a non-null
assertion.  With no matching log rows the call returns the empty sequence; a
NULL description among the joined matching rows makes the call return the
propagated query error; and with a unique user row for the identifier,
pairwise-distinct (type_name, description) catalog keys and an all-non-NULL
catalog, it returns exactly one entry per catalog type having at least one
matching log row, with `total_quantity` the sum of those rows' quantities,
and no entry for a type with none. -/
theorem get_daily_summary_spec (db : DbState) (id : String) (d : Nat)
    (u0 : UserRow) (st0 : SmokingType) (desc0 : String)
    (hu : db.users.filter (fun u => u.discord_id == id) = [u0])
    (ht : db.smoking_types.filter (fun st => st.id == st0.id) = [st0])
    (hd0 : st0.description = some desc0)
    (hk : db.smoking_types.Pairwise
      (fun a b => (a.type_name, a.description) ≠ (b.type_name, b.description))) :
    (matchingLogs db id d = [] → get_daily_summary db id d = some []) ∧
    ((∃ r ∈ joinedRows db id d, r.stype.description = none) →
      get_daily_summary db id d = none) ∧
    ((∀ st ∈ db.smoking_types, st.description.isSome = true) →
      ∃ res, get_daily_summary db id d = some res ∧
        res.filter (fun e => e.type_name == st0.type_name && e.description == desc0)
          = if ((matchingLogs db id d).filter
                (fun l => l.smoking_type_id == st0.id)) = []
            then []
            else [⟨id, u0.username, d, st0.type_name, desc0,
                  some ((((matchingLogs db id d).filter
                      (fun l => l.smoking_type_id == st0.id)).map
                        (fun l => l.quantity)).sum)⟩]) := by
  have hst0mem : st0 ∈ db.smoking_types := by
    have hmem : st0 ∈ db.smoking_types.filter (fun st => st.id == st0.id) := by
      rw [ht]
      exact List.mem_singleton_self st0
    exact List.mem_of_mem_filter hmem
  have hmatch_fields : ∀ l ∈ matchingLogs db id d,
      l.discord_id = id ∧ dateOf l.smoked_at = d := by
    intro l hl
    have hl' : l ∈ db.smoking_logs.filter
        (fun l => l.discord_id == id && dateOf l.smoked_at == d) := hl
    have hmem := List.mem_filter.mp hl'
    have hcond := hmem.2
    simp only [Bool.and_eq_true, beq_iff_eq] at hcond
    exact hcond
  have hjoin : joinedRows db id d
      = (matchingLogs db id d).flatMap (fun l =>
          (db.smoking_types.filter (fun st => st.id == l.smoking_type_id)).map
            (fun st => (⟨l, u0, st⟩ : JoinedRow))) := by
    unfold joinedRows
    apply flatMap_congr
    intro l hl
    rw [(hmatch_fields l hl).1, hu]
    simp
  have hrowfilter : (joinedRows db id d).filter
        (fun r => rowKey r == (id, u0.username, d, st0.type_name, st0.description))
      = ((matchingLogs db id d).filter (fun l => l.smoking_type_id == st0.id)).map
          (fun l => (⟨l, u0, st0⟩ : JoinedRow)) := by
    rw [hjoin, List.filter_flatMap]
    have hinner : ∀ l ∈ matchingLogs db id d,
        ((db.smoking_types.filter (fun st => st.id == l.smoking_type_id)).map
          (fun st => (⟨l, u0, st⟩ : JoinedRow))).filter
            (fun r => rowKey r
              == (id, u0.username, d, st0.type_name, st0.description))
        = if l.smoking_type_id == st0.id
          then [(⟨l, u0, st0⟩ : JoinedRow)] else [] := by
      intro l hl
      obtain ⟨hdid, hdate⟩ := hmatch_fields l hl
      by_cases hle : (l.smoking_type_id == st0.id) = true
      · rw [if_pos hle]
        have hle' : l.smoking_type_id = st0.id := by simpa using hle
        rw [hle', ht]
        simp only [List.map_cons, List.map_nil, List.filter_cons, List.filter_nil]
        have hrk : rowKey ⟨l, u0, st0⟩
            = (id, u0.username, d, st0.type_name, st0.description) := by
          simp [rowKey, hdid, hdate]
        rw [if_pos (by simp [hrk])]
      · rw [if_neg hle]
        rw [List.filter_eq_nil_iff]
        intro r hr hkey
        obtain ⟨st, hstmem, hst⟩ := List.mem_map.mp hr
        subst hst
        have hkey' : rowKey ⟨l, u0, st⟩
            = (id, u0.username, d, st0.type_name, st0.description) := by
          simpa using hkey
        have hcomp : st.type_name = st0.type_name
            ∧ st.description = st0.description := by
          simp only [rowKey, Prod.mk.injEq] at hkey'
          exact ⟨hkey'.2.2.2.1, hkey'.2.2.2.2⟩
        have hsteq : st = st0 :=
          mem_pairwise_key_eq (fun s => (s.type_name, s.description)) hk
            (List.mem_of_mem_filter hstmem) hst0mem
            (by rw [Prod.ext_iff]; exact ⟨hcomp.1, hcomp.2⟩)
        have hstid : st.id = l.smoking_type_id := by
          have := (List.mem_filter.mp hstmem).2
          simpa using this
        rw [hsteq] at hstid
        exact hle (by simpa using hstid.symm)
    rw [flatMap_congr hinner, flatMap_if_single]
  have hkey_shape : ∀ k ∈ (joinedRows db id d).map rowKey,
      ∃ st : SmokingType, st ∈ db.smoking_types ∧
        k = (id, u0.username, d, st.type_name, st.description) := by
    intro k hkmem
    obtain ⟨r, hr, hrk⟩ := List.mem_map.mp hkmem
    rw [hjoin] at hr
    obtain ⟨l, hl, hrmem⟩ := List.mem_flatMap.mp hr
    obtain ⟨st, hstmem, hst⟩ := List.mem_map.mp hrmem
    obtain ⟨hdid, hdate⟩ := hmatch_fields l hl
    refine ⟨st, List.mem_of_mem_filter hstmem, ?_⟩
    rw [← hrk, ← hst]
    simp [rowKey, hdid, hdate]
  refine ⟨?_, ?_, ?_⟩
  · intro hm
    unfold get_daily_summary joinedRows
    rw [hm]
    rfl
  · rintro ⟨r, hrmem, hrnone⟩
    have hkmem : rowKey r ∈ ((joinedRows db id d).map rowKey).dedup :=
      List.mem_dedup.mpr (List.mem_map.mpr ⟨r, hrmem, rfl⟩)
    have hnone : summaryEntry (joinedRows db id d) (rowKey r) = none := by
      have hproj : (rowKey r).2.2.2.2 = none := by
        simp [rowKey, hrnone]
      unfold summaryEntry
      rw [hproj]
    exact decodeSummaryRows_none _ _ _ hkmem hnone
  · intro hdesc
    have hg : ∀ k ∈ ((joinedRows db id d).map rowKey).dedup,
        summaryEntry (joinedRows db id d) k
          = some (⟨k.1, k.2.1, k.2.2.1, k.2.2.2.1, k.2.2.2.2.getD "",
              some ((((joinedRows db id d).filter (fun r => rowKey r == k)).map
                (fun r => r.log.quantity)).sum)⟩ : DailySmokingSummary) := by
      intro k hk'
      obtain ⟨st, hstmem, hkeq⟩ := hkey_shape k (List.mem_dedup.mp hk')
      have hsome := hdesc st hstmem
      cases hsd : st.description with
      | none =>
        rw [hsd] at hsome
        simp at hsome
      | some dx =>
        subst hkeq
        simp [summaryEntry, hsd]
    have hres := decodeSummaryRows_all_some (joinedRows db id d)
      (fun k : SummaryKey => (⟨k.1, k.2.1, k.2.2.1, k.2.2.2.1, k.2.2.2.2.getD "",
        some ((((joinedRows db id d).filter (fun r => rowKey r == k)).map
          (fun r => r.log.quantity)).sum)⟩ : DailySmokingSummary))
      (((joinedRows db id d).map rowKey).dedup) hg
    refine ⟨_, hres, ?_⟩
    have hpk : ∀ k ∈ ((joinedRows db id d).map rowKey).dedup,
        ((fun e : DailySmokingSummary => e.type_name == st0.type_name
            && e.description == desc0)
          ∘ (fun k : SummaryKey => (⟨k.1, k.2.1, k.2.2.1, k.2.2.2.1,
              k.2.2.2.2.getD "",
              some ((((joinedRows db id d).filter (fun r => rowKey r == k)).map
                (fun r => r.log.quantity)).sum)⟩ : DailySmokingSummary))) k
        = (k == (id, u0.username, d, st0.type_name, st0.description)) := by
      intro k hk'
      obtain ⟨st, hstmem, hkeq⟩ := hkey_shape k (List.mem_dedup.mp hk')
      have hsome := hdesc st hstmem
      cases hsd : st.description with
      | none =>
        rw [hsd] at hsome
        simp at hsome
      | some dx =>
        subst hkeq
        show ((st.type_name == st0.type_name)
            && (st.description.getD "" == desc0)) = _
        rw [hsd]
        by_cases h4 : st.type_name = st0.type_name
        · by_cases h5 : dx = desc0
          · simp [h4, h5, hd0]
          · have hR : ¬(((id, u0.username, d, st.type_name, some dx) : SummaryKey)
                = (id, u0.username, d, st0.type_name, st0.description)) := by
              intro hEq
              have h5' := congrArg (fun k : SummaryKey => k.2.2.2.2) hEq
              simp [hd0] at h5'
              exact h5 h5'
            have hB : ((dx : String) == desc0) = false :=
              beq_eq_false_iff_ne.mpr h5
            have hC : (((id, u0.username, d, st.type_name, some dx) : SummaryKey)
                == (id, u0.username, d, st0.type_name, st0.description)) = false :=
              beq_eq_false_iff_ne.mpr hR
            rw [hC]
            simp [hB, h4]
        · have hR : ¬(((id, u0.username, d, st.type_name, some dx) : SummaryKey)
              = (id, u0.username, d, st0.type_name, st0.description)) := by
            intro hEq
            have h4' := congrArg (fun k : SummaryKey => k.2.2.2.1) hEq
            simp at h4'
            exact h4 h4'
          have hA : (st.type_name == st0.type_name) = false :=
            beq_eq_false_iff_ne.mpr h4
          have hC : (((id, u0.username, d, st.type_name, some dx) : SummaryKey)
              == (id, u0.username, d, st0.type_name, st0.description)) = false :=
            beq_eq_false_iff_ne.mpr hR
          rw [hC]
          simp [hA]
    rw [List.filter_map, List.filter_congr hpk]
    by_cases hlogs :
        (matchingLogs db id d).filter (fun l => l.smoking_type_id == st0.id) = []
    · rw [if_pos hlogs]
      rw [hlogs] at hrowfilter
      have hnotmem : (id, u0.username, d, st0.type_name, st0.description)
          ∉ (joinedRows db id d).map rowKey := by
        intro hmem
        obtain ⟨r, hr, hrk⟩ := List.mem_map.mp hmem
        have hrfilter : r ∈ (joinedRows db id d).filter
            (fun r => rowKey r
              == (id, u0.username, d, st0.type_name, st0.description)) :=
          List.mem_filter.mpr ⟨hr, by simp [hrk]⟩
        rw [hrowfilter] at hrfilter
        simp at hrfilter
      have hfilnil : ((joinedRows db id d).map rowKey).dedup.filter
          (fun k => k == (id, u0.username, d, st0.type_name, st0.description))
          = [] := by
        rw [List.filter_eq_nil_iff]
        intro k hk' hbeq
        have hke : k = (id, u0.username, d, st0.type_name, st0.description) := by
          simpa using hbeq
        subst hke
        exact hnotmem (List.mem_dedup.mp hk')
      rw [hfilnil]
      rfl
    · rw [if_neg hlogs]
      obtain ⟨l, hlmem⟩ := List.exists_mem_of_ne_nil _ hlogs
      have hrmem : (⟨l, u0, st0⟩ : JoinedRow) ∈ (joinedRows db id d).filter
          (fun r => rowKey r
            == (id, u0.username, d, st0.type_name, st0.description)) := by
        rw [hrowfilter]
        exact List.mem_map.mpr ⟨l, hlmem, rfl⟩
      have hkmem : (id, u0.username, d, st0.type_name, st0.description)
          ∈ (joinedRows db id d).map rowKey := by
        have hr := List.mem_of_mem_filter hrmem
        have hbeq := (List.mem_filter.mp hrmem).2
        have hrk : rowKey ⟨l, u0, st0⟩
            = (id, u0.username, d, st0.type_name, st0.description) := by
          simpa using hbeq
        exact List.mem_map.mpr ⟨⟨l, u0, st0⟩, hr, hrk⟩
      have hsingle : ((joinedRows db id d).map rowKey).dedup.filter
          (fun k => k == (id, u0.username, d, st0.type_name, st0.description))
          = [(id, u0.username, d, st0.type_name, st0.description)] :=
        nodup_filter_beq (List.nodup_dedup _) (List.mem_dedup.mpr hkmem)
      rw [hsingle]
      simp only [List.map_cons, List.map_nil]
      rw [hrowfilter, List.map_map, hd0]
      rfl

/-- Counterexample to C4 as stated: two catalog types sharing the same
(type_name, description) pair are merged into a single summary entry whose
total is the sum over both types — two types have matching rows, yet the
result holds a single entry and no entry carries type 1's own sum 1. -/
theorem get_daily_summary_counterexample :
    get_daily_summary
        ⟨[⟨"u", "U", 0, 0⟩],
         [⟨1, "A", some "da"⟩, ⟨2, "A", some "da"⟩],
         [⟨1, "u", 1, 1, 0⟩, ⟨2, "u", 2, 1, 0⟩], 3⟩ "u" 0
      = some [⟨"u", "U", 0, "A", "da", some 2⟩] ∧
    ((⟨[⟨"u", "U", 0, 0⟩],
       [⟨1, "A", some "da"⟩, ⟨2, "A", some "da"⟩],
       [⟨1, "u", 1, 1, 0⟩, ⟨2, "u", 2, 1, 0⟩], 3⟩ : DbState).smoking_types.filter
        (fun st => !((matchingLogs
            ⟨[⟨"u", "U", 0, 0⟩],
             [⟨1, "A", some "da"⟩, ⟨2, "A", some "da"⟩],
             [⟨1, "u", 1, 1, 0⟩, ⟨2, "u", 2, 1, 0⟩], 3⟩ "u" 0).filter
          (fun l => l.smoking_type_id == st.id)).isEmpty)).length = 2 ∧
    (((matchingLogs
        ⟨[⟨"u", "U", 0, 0⟩],
         [⟨1, "A", some "da"⟩, ⟨2, "A", some "da"⟩],
         [⟨1, "u", 1, 1, 0⟩, ⟨2, "u", 2, 1, 0⟩], 3⟩ "u" 0).filter
      (fun l => l.smoking_type_id == (1 : Int))).map
        (fun l => l.quantity)).sum = 1 := by
  decide

/-- Witness for C4 (amended) at concrete inputs: three same-day quantity-1
events for type 1, one event on another day, one event for type 2. -/
theorem get_daily_summary_spec_witness :
    ((⟨[⟨"u", "U", 0, 0⟩],
       [⟨1, "A", some "da"⟩, ⟨2, "B", some "db2"⟩],
       [⟨1, "u", 1, 1, 0⟩, ⟨2, "u", 1, 1, 7⟩, ⟨3, "u", 1, 1, 9⟩,
        ⟨4, "u", 1, 1, 90000⟩, ⟨5, "u", 2, 1, 11⟩], 6⟩ : DbState).users.filter
        (fun u => u.discord_id == "u") = [⟨"u", "U", 0, 0⟩]) ∧
    ((⟨[⟨"u", "U", 0, 0⟩],
       [⟨1, "A", some "da"⟩, ⟨2, "B", some "db2"⟩],
       [⟨1, "u", 1, 1, 0⟩, ⟨2, "u", 1, 1, 7⟩, ⟨3, "u", 1, 1, 9⟩,
        ⟨4, "u", 1, 1, 90000⟩, ⟨5, "u", 2, 1, 11⟩], 6⟩ : DbState).smoking_types.filter
        (fun st => st.id == (1 : Int)) = [⟨1, "A", some "da"⟩]) ∧
    (∀ st ∈ (⟨[⟨"u", "U", 0, 0⟩],
       [⟨1, "A", some "da"⟩, ⟨2, "B", some "db2"⟩],
       [⟨1, "u", 1, 1, 0⟩, ⟨2, "u", 1, 1, 7⟩, ⟨3, "u", 1, 1, 9⟩,
        ⟨4, "u", 1, 1, 90000⟩, ⟨5, "u", 2, 1, 11⟩], 6⟩ : DbState).smoking_types,
      st.description.isSome = true) ∧
    (∃ res, get_daily_summary
        ⟨[⟨"u", "U", 0, 0⟩],
         [⟨1, "A", some "da"⟩, ⟨2, "B", some "db2"⟩],
         [⟨1, "u", 1, 1, 0⟩, ⟨2, "u", 1, 1, 7⟩, ⟨3, "u", 1, 1, 9⟩,
          ⟨4, "u", 1, 1, 90000⟩, ⟨5, "u", 2, 1, 11⟩], 6⟩ "u" 0 = some res ∧
      res.filter (fun e => e.type_name == "A" && e.description == "da")
        = [⟨"u", "U", 0, "A", "da", some 3⟩]) := by
  refine ⟨by decide, by decide, by decide, ?_⟩
  obtain ⟨res, hres, hfilter⟩ := (get_daily_summary_spec
    ⟨[⟨"u", "U", 0, 0⟩],
     [⟨1, "A", some "da"⟩, ⟨2, "B", some "db2"⟩],
     [⟨1, "u", 1, 1, 0⟩, ⟨2, "u", 1, 1, 7⟩, ⟨3, "u", 1, 1, 9⟩,
      ⟨4, "u", 1, 1, 90000⟩, ⟨5, "u", 2, 1, 11⟩], 6⟩ "u" 0
    ⟨"u", "U", 0, 0⟩ ⟨1, "A", some "da"⟩ "da"
    (by decide) (by decide) (by decide) (by decide)).2.2 (by decide)
  exact ⟨res, hres, hfilter.trans (by decide)⟩

lemma get_or_create_user_logs (st : DbState) (id n : String) (now : Nat) :
    ((get_or_create_user st id n now).2.1).smoking_logs = st.smoking_logs := by
  cases hf : findUser st.users id with
  | none => simp [get_or_create_user, hf]
  | some u =>
    by_cases hne : u.username ≠ n
    · simp [get_or_create_user, hf, if_pos hne]
    · push_neg at hne
      simp [get_or_create_user, hf, hne]

/-- C8: when the button-identifier suffix fails to decode, the handler
returns the propagated error (no reply), no smoking-log row is inserted, and
that invocation's listen loop terminates at this event regardless of later
queued events. -/
theorem malformed_suffix_spec (st : DbState) (a : String) (e : Interaction)
    (uuid : List Char) (now today : Nat)
    (h : extract_cigarette_id e.custom_id uuid = none) :
    (handle_interaction st a e uuid now today).2 = none ∧
    ((handle_interaction st a e uuid now today).1).smoking_logs = st.smoking_logs ∧
    ∀ es : List Interaction,
      run_listen_loop a uuid now today st (e :: es)
        = ((handle_interaction st a e uuid now today).1, false) := by
  refine ⟨?_, ?_, ?_⟩
  · simp [handle_interaction, h]
  · simp [handle_interaction, h, get_or_create_user_logs]
  · intro es
    simp [run_listen_loop, handle_interaction, h]

/-- Witness for C8 at concrete inputs. -/
theorem malformed_suffix_spec_witness :
    extract_cigarette_id ("XQ".data) ("X".data) = none ∧
    (handle_interaction ⟨[], [], [], 1⟩ "A" ⟨"9", "B", "XQ".data⟩ ("X".data) 0 0).2
      = none ∧
    ((handle_interaction ⟨[], [], [], 1⟩ "A" ⟨"9", "B", "XQ".data⟩
        ("X".data) 0 0).1).smoking_logs = [] ∧
    run_listen_loop "A" ("X".data) 0 0 ⟨[], [], [], 1⟩
        [⟨"9", "B", "XQ".data⟩, ⟨"9", "B", "X1".data⟩]
      = ((handle_interaction ⟨[], [], [], 1⟩ "A" ⟨"9", "B", "XQ".data⟩
          ("X".data) 0 0).1, false) :=
  ⟨by decide,
   (malformed_suffix_spec ⟨[], [], [], 1⟩ "A" ⟨"9", "B", "XQ".data⟩
     ("X".data) 0 0 (by decide)).1,
   (malformed_suffix_spec ⟨[], [], [], 1⟩ "A" ⟨"9", "B", "XQ".data⟩
     ("X".data) 0 0 (by decide)).2.1,
   (malformed_suffix_spec ⟨[], [], [], 1⟩ "A" ⟨"9", "B", "XQ".data⟩
     ("X".data) 0 0 (by decide)).2.2 [⟨"9", "B", "X1".data⟩]⟩

/-- C2 evaluated at the failing input: the command was invoked by "Alice",
the button press comes from user id "222" whose display name is "Bob"; the
handler stores user row ("222", "Alice") — the event's user identifier paired
with the invoker's display name rather than the presser's own — while still
recording exactly one log row of quantity 1. -/
theorem handle_interaction_uses_invoker_name :
    (handle_interaction ⟨[], [⟨1, "t", some "d"⟩], [], 1⟩ "Alice"
        ⟨"222", "Bob", "X1".data⟩ ("X".data) 0 0).1.users
      = [⟨"222", "Alice", 0, 0⟩] ∧
    (handle_interaction ⟨[], [⟨1, "t", some "d"⟩], [], 1⟩ "Alice"
        ⟨"222", "Bob", "X1".data⟩ ("X".data) 0 0).1.users.map (fun u => u.username)
      ≠ ["Bob"] ∧
    (handle_interaction ⟨[], [⟨1, "t", some "d"⟩], [], 1⟩ "Alice"
        ⟨"222", "Bob", "X1".data⟩ ("X".data) 0 0).1.smoking_logs
      = [⟨1, "222", 1, 1, 0⟩] := by decide

lemma data_append (a b : String) : (a ++ b).data = a.data ++ b.data := by
  cases a
  cases b
  rfl

lemma foldl_append_data (l : List String) : ∀ s : String,
    (l.foldl (fun a b => a ++ b) s).data = s.data ++ l.flatMap String.data := by
  induction l with
  | nil =>
    intro s
    simp
  | cons x xs ih =>
    intro s
    rw [List.foldl_cons, ih, data_append, List.flatMap_cons, List.append_assoc]

lemma format_daily_summary_data (ds : List DailySmokingSummary) :
    (format_daily_summary ds).data
      = ds.flatMap (fun e =>
          ("\n" ++ e.description ++ ": "
            ++ intStr (e.total_quantity.getD 0) ++ "本").data) := by
  unfold format_daily_summary
  rw [foldl_append_data, List.flatMap_map]
  rfl

/-- C5: when the button press parses and the daily-summary query returns a
result, the handler replies with a direct response to the triggering
button-press event (not a new channel message), whose content is the fixed
header followed by one "<description>: <total>本" line per summary entry;
when the summary query errors, the handler sends no response at all. -/
theorem reply_format_spec (st : DbState) (a : String) (mci : Interaction)
    (uuid : List Char) (now today : Nat) (cid : Int)
    (h : extract_cigarette_id mci.custom_id uuid = some cid) :
    (∀ ds, get_daily_summary
          (log_smoking (get_or_create_user st mci.user_id a now).2.1
            (get_or_create_user st mci.user_id a now).1.discord_id cid 1 now).2
          (get_or_create_user st mci.user_id a now).1.discord_id today = some ds →
      ∃ rep : Reply,
        (handle_interaction st a mci uuid now today).2 = some rep ∧
        rep.kind = ReplyKind.interactionResponse ∧
        rep.content.data
          = "記録しました。\n本日の累計本数".data
            ++ ds.flatMap (fun e => ("\n" ++ e.description ++ ": "
                ++ intStr (e.total_quantity.getD 0) ++ "本").data)) ∧
    (get_daily_summary
          (log_smoking (get_or_create_user st mci.user_id a now).2.1
            (get_or_create_user st mci.user_id a now).1.discord_id cid 1 now).2
          (get_or_create_user st mci.user_id a now).1.discord_id today = none →
      (handle_interaction st a mci uuid now today).2 = none) := by
  constructor
  · intro ds hds
    refine ⟨⟨ReplyKind.interactionResponse,
      "記録しました。\n本日の累計本数" ++ format_daily_summary ds⟩, ?_, rfl, ?_⟩
    · simp [handle_interaction, h, hds]
    · rw [data_append, format_daily_summary_data]
  · intro hds
    simp [handle_interaction, h, hds]

/-- Witness for C5 at concrete inputs. -/
theorem reply_format_spec_witness :
    extract_cigarette_id ("X1".data) ("X".data) = some 1 ∧
    get_daily_summary
        (log_smoking (get_or_create_user ⟨[], [⟨1, "t", some "d"⟩], [], 1⟩
            "9" "A" 0).2.1
          (get_or_create_user ⟨[], [⟨1, "t", some "d"⟩], [], 1⟩
            "9" "A" 0).1.discord_id 1 1 0).2
        (get_or_create_user ⟨[], [⟨1, "t", some "d"⟩], [], 1⟩
          "9" "A" 0).1.discord_id 0
      = some [⟨"9", "A", 0, "t", "d", some 1⟩] ∧
    (∃ rep : Reply,
      (handle_interaction ⟨[], [⟨1, "t", some "d"⟩], [], 1⟩ "A"
          ⟨"9", "B", "X1".data⟩ ("X".data) 0 0).2 = some rep ∧
      rep.kind = ReplyKind.interactionResponse ∧
      rep.content.data
        = "記録しました。\n本日の累計本数".data
          ++ ([⟨"9", "A", 0, "t", "d", some 1⟩] :
              List DailySmokingSummary).flatMap
            (fun e => ("\n" ++ e.description ++ ": "
                ++ intStr (e.total_quantity.getD 0) ++ "本").data)) :=
  ⟨by decide, by decide,
   (reply_format_spec ⟨[], [⟨1, "t", some "d"⟩], [], 1⟩ "A"
     ⟨"9", "B", "X1".data⟩ ("X".data) 0 0 1 (by decide)).1
     [⟨"9", "A", 0, "t", "d", some 1⟩] (by decide)⟩

lemma isPrefixOf_of_both_le : ∀ {a b c : List Char}, a.isPrefixOf c = true →
    b.isPrefixOf c = true → a.length ≤ b.length → a.isPrefixOf b = true := by
  intro a
  induction a with
  | nil =>
    intro b c _ _ _
    simp [List.isPrefixOf]
  | cons x as ih =>
    intro b c ha hb hlen
    cases c with
    | nil => simp [List.isPrefixOf] at ha
    | cons z cs =>
      cases b with
      | nil => simp at hlen
      | cons y bs =>
        simp only [List.isPrefixOf, Bool.and_eq_true] at ha hb ⊢
        have hxz : x = z := by simpa using ha.1
        have hyz : y = z := by simpa using hb.1
        exact ⟨by simp [hxz, hyz], ih ha.2 hb.2 (by simpa using hlen)⟩

/-- C9 (amended): for distinct correlation tokens neither of which is a
prefix of the other, a button press originating from the panel rendered
under t1 (custom identifier t1 followed by the type id) is never accepted by
the listener filtering on t2. -/
theorem cross_token_no_dispatch (t1 t2 : List Char) (id : Int)
    (h1 : t1.isPrefixOf t2 = false) (h2 : t2.isPrefixOf t1 = false) :
    interaction_filter t2 (button_custom_id t1 id) = false := by
  by_contra hcon
  have htrue : t2.isPrefixOf (t1 ++ (intStr id).data) = true := by
    revert hcon
    unfold interaction_filter button_custom_id
    cases t2.isPrefixOf (t1 ++ (intStr id).data) <;> simp
  have hself : t1.isPrefixOf (t1 ++ (intStr id).data) = true :=
    isPrefixOf_append_self _ _
  rcases Nat.le_total t2.length t1.length with hle | hle
  · exact absurd (isPrefixOf_of_both_le htrue hself hle) (by simp [h2])
  · exact absurd (isPrefixOf_of_both_le hself htrue hle) (by simp [h1])

/-- Counterexample to C9 as stated: tokens "12" and "1" are distinct, yet a
press of the type-3 button of the panel rendered under token "12" passes the
listener filter of the invocation with token "1" (its custom identifier
"123" starts with "1"). -/
theorem cross_token_dispatch_counterexample :
    ("12".data ≠ "1".data) ∧
    interaction_filter ("1".data) (button_custom_id ("12".data) 3) = true := by
  decide

/-- Witness for C9 (amended) at concrete inputs. -/
theorem cross_token_no_dispatch_witness :
    (("10".data : List Char).isPrefixOf ("11".data) = false) ∧
    (("11".data : List Char).isPrefixOf ("10".data) = false) ∧
    interaction_filter ("11".data) (button_custom_id ("10".data) 3) = false :=
  ⟨by decide, by decide,
   cross_token_no_dispatch ("10".data) ("11".data) 3 (by decide) (by decide)⟩

/-- C7: `Config::load` errors exactly when BOT_TOKEN or DATABASE_URL is
absent from the environment; when both are present it succeeds and the
command text marker equals COMMAND_PREFIX when set and "c:" otherwise. -/
theorem config_load_spec (env : String → Option String) :
    ((∃ c, Config.load env = Except.ok c)
      ↔ (env "BOT_TOKEN").isSome = true ∧ (env "DATABASE_URL").isSome = true) ∧
    (∀ bt du, env "BOT_TOKEN" = some bt → env "DATABASE_URL" = some du →
      Config.load env = Except.ok ⟨bt, du, (env "COMMAND_PREFIX").getD "c:"⟩) ∧
    (env "BOT_TOKEN" = none →
      Config.load env = Except.error ConfigError.MissingBotToken) ∧
    (∀ bt, env "BOT_TOKEN" = some bt → env "DATABASE_URL" = none →
      Config.load env = Except.error ConfigError.MissingDatabaseUrl) := by
  refine ⟨?_, ?_, ?_, ?_⟩
  · constructor
    · rintro ⟨c, hc⟩
      cases hbt : env "BOT_TOKEN" with
      | none => simp [Config.load, hbt] at hc
      | some bt =>
        cases hdu : env "DATABASE_URL" with
        | none => simp [Config.load, hbt, hdu] at hc
        | some du => simp [hbt, hdu]
    · rintro ⟨hb, hd⟩
      cases hbt : env "BOT_TOKEN" with
      | none => simp [hbt] at hb
      | some bt =>
        cases hdu : env "DATABASE_URL" with
        | none => simp [hdu] at hd
        | some du =>
          exact ⟨⟨bt, du, (env "COMMAND_PREFIX").getD "c:"⟩,
            by simp [Config.load, hbt, hdu]⟩
  · intro bt du hb hd
    simp [Config.load, hb, hd]
  · intro hb
    simp [Config.load, hb]
  · intro bt hb hd
    simp [Config.load, hb, hd]

/-- Witness for C7 at a concrete environment. -/
theorem config_load_spec_witness :
    (envW "BOT_TOKEN" = some "tok") ∧ (envW "DATABASE_URL" = some "db") ∧
    Config.load envW = Except.ok ⟨"tok", "db", (envW "COMMAND_PREFIX").getD "c:"⟩ :=
  ⟨by decide, by decide,
   (config_load_spec envW).2.1 "tok" "db" (by decide) (by decide)⟩

/-- C10: `extract_cigarette_id` removes every leading repetition of the token
(not just one occurrence), and it accepts a signed remainder, so the suffix
"-3" parses successfully to the negative type id -3 instead of failing. -/
theorem extract_cigarette_id_repeats_and_sign :
    (∀ t s : List Char,
        extract_cigarette_id (t ++ t ++ s) t = extract_cigarette_id (t ++ s) t) ∧
    extract_cigarette_id ("abc123def-3".data) ("abc123def".data) = some (-3) := by
  constructor
  · intro t s
    by_cases ht : t = []
    · subst ht
      simp
    · unfold extract_cigarette_id
      rw [List.append_assoc, trimStartMatches_append t (t ++ s) ht]
  · decide

end CigCounter
